import Mathlib

/-!
# Verification of the vf-bot-antismoke core (Telegram ⇄ Voiceflow bridge)

Shallow embedding of the core of `src/routes/telegram.ts` and
`src/services/voiceflowRuntime.ts`:

* the anti-replay admission cache (`markSeen`, `seen`, `SEEN_TTL_MS`);
* the callback-payload indirection store (`makeToken`, `putCallbackPayload`,
  `getCallbackPayload`, `cbStore`, `CB_TTL_MS`);
* the outbound send path (`telegramSendMessage` button encoding against the
  60-byte callback-data safety threshold);
* the Voiceflow trace normalization (`pushUniqueText`, `payloadToString`,
  the response loop of `voiceflowInteract`, and its fallbacks);
* the webhook orchestration (`telegramRoutes` handler: admission on
  `update_id`, callback-click path, plain-message path).

JavaScript `Map`s are embedded as association lists (`Map.set` replaces the
first binding in place or appends, `Map.get` finds the first binding,
`Map.delete` removes it), `Date.now()` is an explicit `now : Nat` parameter
(milliseconds), `Math.random()`-derived token components are explicit string
parameters, and JSON values reachable from `res.json()` are the inductive
`JVal`.  Network effects are out of the model: the Voiceflow response is an
oracle parameter and outbound Telegram calls are recorded as events.
-/

namespace VfBot

/-! ## JavaScript Map as an association list -/

/-- `Map.get`: first binding of the key, if any. -/
def mapGet {α : Type} (m : List (String × α)) (k : String) : Option α :=
  match m with
  | [] => none
  | (k', v) :: rest => if k' = k then some v else mapGet rest k

/-- `Map.set`: replace the first binding in place, else append. -/
def mapSet {α : Type} (m : List (String × α)) (k : String) (v : α) :
    List (String × α) :=
  match m with
  | [] => [(k, v)]
  | (k', v') :: rest =>
    if k' = k then (k, v) :: rest else (k', v') :: mapSet rest k v

/-- `Map.delete`: remove the first binding of the key. -/
def mapDelete {α : Type} (m : List (String × α)) (k : String) :
    List (String × α) :=
  match m with
  | [] => []
  | (k', v') :: rest =>
    if k' = k then rest else (k', v') :: mapDelete rest k

theorem mapGet_filter_some {α : Type} {m : List (String × α)} {k : String}
    {v : α} {p : String × α → Bool} (h : mapGet m k = some v)
    (hp : p (k, v) = true) : mapGet (m.filter p) k = some v := by
  induction m with
  | nil => simp [mapGet] at h
  | cons e rest ih =>
    obtain ⟨k', v'⟩ := e
    by_cases hk : k' = k
    · subst hk
      simp [mapGet] at h
      subst h
      simp [List.filter, hp, mapGet]
    · simp [mapGet, hk] at h
      cases hpe : p (k', v') <;> simp [List.filter, hpe, mapGet, hk, ih h]

theorem mapGet_filter_none {α : Type} {m : List (String × α)} {k : String}
    {p : String × α → Bool} (h : mapGet m k = none) :
    mapGet (m.filter p) k = none := by
  induction m with
  | nil => simp [List.filter, mapGet]
  | cons e rest ih =>
    obtain ⟨k', v'⟩ := e
    by_cases hk : k' = k
    · subst hk; simp [mapGet] at h
    · simp [mapGet, hk] at h
      cases hpe : p (k', v') <;> simp [List.filter, hpe, mapGet, hk, ih h]

theorem mapGet_mapSet_self {α : Type} (m : List (String × α)) (k : String)
    (v : α) : mapGet (mapSet m k v) k = some v := by
  induction m with
  | nil => simp [mapSet, mapGet]
  | cons e rest ih =>
    obtain ⟨k', v'⟩ := e
    by_cases hk : k' = k <;> simp [mapSet, mapGet, hk, ih]

theorem mapGet_mapSet_ne {α : Type} (m : List (String × α)) {k k' : String}
    (v : α) (hk : k' ≠ k) : mapGet (mapSet m k' v) k = mapGet m k := by
  induction m with
  | nil => simp [mapSet, mapGet, hk]
  | cons e rest ih =>
    obtain ⟨k₁, v₁⟩ := e
    by_cases h₁ : k₁ = k'
    · subst h₁; simp [mapSet, mapGet, hk]
    · simp [mapSet, h₁, mapGet, ih]

theorem mapGet_eq_none_of_not_mem {α : Type} {m : List (String × α)}
    {k : String} (h : k ∉ m.map Prod.fst) : mapGet m k = none := by
  induction m with
  | nil => rfl
  | cons e rest ih =>
    obtain ⟨k', v'⟩ := e
    have hne : k' ≠ k := by
      intro hh; subst hh; exact h (by simp)
    have hrest : k ∉ rest.map Prod.fst := by
      intro hh; exact h (by simp [hh])
    simp [mapGet, hne, ih hrest]

theorem mapGet_filter_none_of_dropped {α : Type} {m : List (String × α)}
    {k : String} {v : α} {p : String × α → Bool}
    (hnd : (m.map Prod.fst).Nodup) (h : mapGet m k = some v)
    (hp : p (k, v) = false) : mapGet (m.filter p) k = none := by
  induction m with
  | nil => simp [mapGet] at h
  | cons e rest ih =>
    obtain ⟨k', v'⟩ := e
    rw [List.map_cons, List.nodup_cons] at hnd
    by_cases hk : k' = k
    · subst hk
      simp [mapGet] at h
      subst h
      simp [List.filter, hp]
      exact mapGet_filter_none (mapGet_eq_none_of_not_mem hnd.1)
    · simp [mapGet, hk] at h
      cases hpe : p (k', v') <;>
        simp [List.filter, hpe, mapGet, hk, ih hnd.2 h]

/-! ## IdempotencyGuard: the `seen` anti-replay cache -/

/-- `const SEEN_TTL_MS = 5 * 60 * 1000`. -/
def SEEN_TTL_MS : Nat := 5 * 60 * 1000

/-- The occasional cleanup loop inside `markSeen`:
`for (const [k, ts] of seen) if (now - ts > SEEN_TTL_MS) seen.delete(k)`. -/
def sweepSeen (now : Nat) (m : List (String × Nat)) : List (String × Nat) :=
  m.filter fun e => now - e.2 ≤ SEEN_TTL_MS

/-- `markSeen(key)` from `src/routes/telegram.ts`.  `Date.now()` is the
explicit `now` argument; the map is threaded explicitly.  The truthiness
test `if (prev && now - prev < SEEN_TTL_MS)` is embedded as
`prev != 0 && now - prev < SEEN_TTL_MS` (a stored `0` timestamp is falsy in
JavaScript); `now - prev` is `Nat` subtraction, which agrees with the
JavaScript comparison (a negative difference is `< SEEN_TTL_MS` there and
truncates to `0 < SEEN_TTL_MS` here). -/
def markSeen (key : String) (now : Nat) (m : List (String × Nat)) :
    Bool × List (String × Nat) :=
  let m1 := if 5000 < m.length then sweepSeen now m else m
  match mapGet m1 key with
  | some prev =>
    if prev ≠ 0 ∧ now - prev < SEEN_TTL_MS then (false, m1)
    else (true, mapSet m1 key now)
  | none => (true, mapSet m1 key now)

example : (markSeen "k" 10 []).1 = true := by decide
example : (markSeen "k" 20 [("k", 10)]).1 = false := by decide
example : (markSeen "k" (10 + SEEN_TTL_MS) [("k", 10)]).1 = true := by decide

theorem markSeen_of_absent {m : List (String × Nat)} {k : String}
    (now : Nat) (h : mapGet m k = none) :
    markSeen k now m = (true, mapSet (if 5000 < m.length then sweepSeen now m else m) k now) := by
  unfold markSeen
  by_cases hs : 5000 < m.length <;>
    simp [hs, sweepSeen, mapGet_filter_none h, h]

theorem mapGet_markSeen_self {m : List (String × Nat)} {k : String}
    (now : Nat) :
    (markSeen k now m).1 = true →
    mapGet (markSeen k now m).2 k = some now := by
  unfold markSeen
  by_cases hs : 5000 < m.length <;>
    cases hget : mapGet (if 5000 < m.length then sweepSeen now m else m) k <;>
      simp_all [mapGet_mapSet_self] <;> split <;>
        simp_all [mapGet_mapSet_self]

/-- **C1.** `markSeen` (the `admit` operation of the idempotency guard)
returns `true` on the first call for a key, `false` on every repeated
call made strictly less than `SEEN_TTL_MS` (5 minutes) after the first
admission — leaving the stored first-admission timestamp unchanged, so the
window is fixed, not sliding — and `true` again once 5 or more minutes
have elapsed.  The map is assumed key-unique (a JavaScript `Map`) and the
first-admission timestamp positive (`Date.now()` is never `0`). -/
theorem markSeen_admission_window (m : List (String × Nat)) (k : String)
    (now t0 : Nat) (hnd : (m.map Prod.fst).Nodup) :
    (mapGet m k = none → (markSeen k now m).1 = true) ∧
    (mapGet m k = some t0 → 0 < t0 →
      (now - t0 < SEEN_TTL_MS →
        (markSeen k now m).1 = false ∧
        mapGet (markSeen k now m).2 k = some t0) ∧
      (SEEN_TTL_MS ≤ now - t0 → (markSeen k now m).1 = true)) := by
  constructor
  · intro h
    rw [markSeen_of_absent now h]
  · intro hget ht0
    have ht0' : t0 ≠ 0 := Nat.pos_iff_ne_zero.mp ht0
    constructor
    · intro hwin
      have hm1 : mapGet (if 5000 < m.length then sweepSeen now m else m) k
          = some t0 := by
        split
        · exact mapGet_filter_some hget (by
            simp only [decide_eq_true_eq]; omega)
        · exact hget
      unfold markSeen
      simp only [hm1]
      rw [if_pos ⟨ht0', hwin⟩]
      exact ⟨rfl, hm1⟩
    · intro hexp
      unfold markSeen
      by_cases hs : 5000 < m.length
      · by_cases hlt : SEEN_TTL_MS < now - t0
        · have hdrop : mapGet (sweepSeen now m) k = none := by
            apply mapGet_filter_none_of_dropped hnd hget
            simp only [decide_eq_false_iff_not]
            omega
          simp only [if_pos hs, hdrop]
        · have heq : now - t0 = SEEN_TTL_MS := by omega
          have hm1 : mapGet (sweepSeen now m) k = some t0 :=
            mapGet_filter_some hget (by
              simp only [decide_eq_true_eq]; omega)
          simp only [if_pos hs, hm1]
          rw [if_neg (by omega : ¬(t0 ≠ 0 ∧ now - t0 < SEEN_TTL_MS))]
      · simp only [if_neg hs, hget]
        rw [if_neg (by omega : ¬(t0 ≠ 0 ∧ now - t0 < SEEN_TTL_MS))]

/-- Witness for `markSeen_admission_window` at a concrete map and times. -/
theorem markSeen_admission_window_witness :
    (markSeen "k" 2 [("k", 1)]).1 = false ∧
    mapGet (markSeen "k" 2 [("k", 1)]).2 "k" = some 1 ∧
    (markSeen "k" (1 + SEEN_TTL_MS) [("k", 1)]).1 = true :=
  ⟨(((markSeen_admission_window [("k", 1)] "k" 2 1 (by decide)).2
      (by decide) (by decide)).1 (by decide)).1,
   (((markSeen_admission_window [("k", 1)] "k" 2 1 (by decide)).2
      (by decide) (by decide)).1 (by decide)).2,
   ((markSeen_admission_window [("k", 1)] "k" (1 + SEEN_TTL_MS) 1
      (by decide)).2 (by decide) (by decide)).2 (by decide)⟩

/-! ## CallbackIndirectionStore: `cbStore`, `putCallbackPayload`,
`getCallbackPayload` -/

/-- One entry of `cbStore`: `{ payload: string; exp: number }`. -/
structure CBEntry where
  payload : String
  exp : Nat
  deriving Repr, DecidableEq

/-- `const CB_TTL_MS = 10 * 60 * 1000`. -/
def CB_TTL_MS : Nat := 10 * 60 * 1000

/-- `getCallbackPayload(tokenOrPayload)` from `src/routes/telegram.ts`:
unknown input is returned unchanged; an expired entry is lazily deleted
and the input returned unchanged; a live entry resolves to its payload. -/
def getCallbackPayload (s : String) (now : Nat)
    (m : List (String × CBEntry)) : String × List (String × CBEntry) :=
  match mapGet m s with
  | none => (s, m)
  | some v => if v.exp < now then (s, mapDelete m s) else (v.payload, m)

/-- **C2.** `getCallbackPayload` returns the stored payload exactly when
its input is a key of the store whose entry has not expired; in every
other case (absent key, or present-but-expired entry, which it lazily
deletes) it returns the input string itself unchanged.  It is a total
function: no case throws or signals a lookup failure. -/
theorem getCallbackPayload_total_resolution
    (m : List (String × CBEntry)) (s : String) (now : Nat) :
    (mapGet m s = none → getCallbackPayload s now m = (s, m)) ∧
    (∀ v, mapGet m s = some v → now ≤ v.exp →
      getCallbackPayload s now m = (v.payload, m)) ∧
    (∀ v, mapGet m s = some v → v.exp < now →
      getCallbackPayload s now m = (s, mapDelete m s)) := by
  refine ⟨fun h => ?_, fun v h hl => ?_, fun v h he => ?_⟩
  · simp [getCallbackPayload, h]
  · simp [getCallbackPayload, h, Nat.not_lt.mpr hl]
  · simp [getCallbackPayload, h, he]

/-- Witness for `getCallbackPayload_total_resolution`: live hit, miss,
and expired entry at a concrete store. -/
theorem getCallbackPayload_total_resolution_witness :
    getCallbackPayload "t" 50 [("t", ⟨"P", 100⟩)] = ("P", [("t", ⟨"P", 100⟩)]) ∧
    getCallbackPayload "x" 50 [("t", ⟨"P", 100⟩)] = ("x", [("t", ⟨"P", 100⟩)]) ∧
    getCallbackPayload "t" 200 [("t", ⟨"P", 100⟩)] = ("t", []) :=
  ⟨(getCallbackPayload_total_resolution [("t", ⟨"P", 100⟩)] "t" 50).2.1
      ⟨"P", 100⟩ (by decide) (by decide),
   (getCallbackPayload_total_resolution [("t", ⟨"P", 100⟩)] "x" 50).1
      (by decide),
   (getCallbackPayload_total_resolution [("t", ⟨"P", 100⟩)] "t" 200).2.2
      ⟨"P", 100⟩ (by decide) (by decide)⟩

/-! ## UTF-8 byte measurement and token generation -/

/-- `Buffer.byteLength(s, 'utf8')`: UTF-8 encoded byte length. -/
def utf8Len (s : String) : Nat := (s.data.map Char.utf8Size).sum

theorem utf8Len_append (a b : String) :
    utf8Len (a ++ b) = utf8Len a + utf8Len b := by
  cases a with | mk d1 =>
  cases b with | mk d2 =>
  show ((d1 ++ d2).map Char.utf8Size).sum
    = (d1.map Char.utf8Size).sum + (d2.map Char.utf8Size).sum
  rw [List.map_append, List.sum_append]

theorem sum_map_utf8Size_eq_length {l : List Char}
    (h : ∀ c ∈ l, c.utf8Size = 1) : (l.map Char.utf8Size).sum = l.length := by
  induction l with
  | nil => rfl
  | cons c cs ih =>
    simp only [List.mem_cons, forall_eq_or_imp] at h
    simp [ih h.2, h.1]
    omega

theorem utf8Len_eq_length_of_ascii {s : String}
    (h : ∀ c ∈ s.data, c.utf8Size = 1) : utf8Len s = s.data.length :=
  sum_map_utf8Size_eq_length h

/-- Digit character of `Number.prototype.toString(36)`:
`0-9` then `a-z`. -/
def base36Char (d : Nat) : Char :=
  if d < 10 then Char.ofNat (48 + d) else Char.ofNat (87 + d)

theorem base36Char_utf8Size : ∀ d, d < 36 → (base36Char d).utf8Size = 1 := by
  decide

/-- Digit accumulation loop of `toString(36)` (fuel-based). -/
def toBase36Core (fuel : Nat) (n : Nat) (acc : List Char) : List Char :=
  match fuel with
  | 0 => acc
  | fuel + 1 =>
    if n = 0 then acc
    else toBase36Core fuel (n / 36) (base36Char (n % 36) :: acc)

/-- `n.toString(36)` for a natural number. -/
def toBase36 (n : Nat) : String :=
  if n = 0 then "0" else ⟨toBase36Core n n []⟩

example : toBase36 5 = "5" := by decide
example : toBase36 36 = "10" := by decide
example : toBase36 35 = "z" := by decide

theorem toBase36Core_length (fuel : Nat) :
    ∀ (n d : Nat) (acc : List Char), n < 36 ^ d →
      (toBase36Core fuel n acc).length ≤ acc.length + d := by
  induction fuel with
  | zero => intro n d acc _; simp [toBase36Core]
  | succ fuel ih =>
    intro n d acc h
    by_cases hn : n = 0
    · simp [toBase36Core, hn]
    · have hd : d ≠ 0 := by
        intro h0
        subst h0
        simp at h
        omega
      obtain ⟨d', rfl⟩ : ∃ d', d = d' + 1 := ⟨d - 1, by omega⟩
      have hrec : n / 36 < 36 ^ d' := by
        rw [Nat.div_lt_iff_lt_mul (by norm_num)]
        calc n < 36 ^ (d' + 1) := h
          _ = 36 ^ d' * 36 := by ring
      have hstep := ih (n / 36) d' (base36Char (n % 36) :: acc) hrec
      simp only [toBase36Core]
      rw [if_neg hn]
      simp at hstep
      omega

theorem toBase36Core_ascii (fuel : Nat) :
    ∀ (n : Nat) (acc : List Char), (∀ c ∈ acc, c.utf8Size = 1) →
      ∀ c ∈ toBase36Core fuel n acc, c.utf8Size = 1 := by
  induction fuel with
  | zero => intro n acc hacc; simpa [toBase36Core] using hacc
  | succ fuel ih =>
    intro n acc hacc
    by_cases hn : n = 0
    · simpa [toBase36Core, hn] using hacc
    · simp only [toBase36Core, hn, if_neg]
      apply ih
      intro c hc
      rcases List.mem_cons.mp hc with rfl | hc
      · exact base36Char_utf8Size _ (Nat.mod_lt _ (by norm_num))
      · exact hacc c hc

theorem utf8Len_toBase36_le (n d : Nat) (h : n < 36 ^ d) (hd : 0 < d) :
    utf8Len (toBase36 n) ≤ d := by
  unfold toBase36
  by_cases hn : n = 0
  · rw [if_pos hn]
    have h0 : utf8Len "0" = 1 := by decide
    omega
  · rw [if_neg hn]
    have hlen := toBase36Core_length n n d [] h
    have hascii := toBase36Core_ascii n n [] (by simp)
    have heq := utf8Len_eq_length_of_ascii (s := ⟨toBase36Core n n []⟩) hascii
    rw [show (⟨toBase36Core n n []⟩ : String).data = toBase36Core n n []
      from rfl] at heq
    simp at hlen
    omega

/-- `makeToken()`: `` `${Date.now().toString(36)}_${Math.random().toString(36).slice(2, 10)}` ``.
`Date.now()` and the random slice are explicit parameters. -/
def makeToken (now : Nat) (rand : String) : String :=
  toBase36 now ++ "_" ++ rand

theorem utf8Len_makeToken_le (now : Nat) (rand : String)
    (hnow : now < 36 ^ 10) (hlen : rand.length ≤ 8)
    (hascii : ∀ c ∈ rand.data, c.utf8Size = 1) :
    utf8Len (makeToken now rand) ≤ 19 := by
  unfold makeToken
  rw [utf8Len_append, utf8Len_append]
  have h1 := utf8Len_toBase36_le now 10 hnow (by norm_num)
  have h2 : utf8Len "_" = 1 := by decide
  have h3 : utf8Len rand = rand.data.length := utf8Len_eq_length_of_ascii hascii
  have h4 : rand.data.length = rand.length := rfl
  omega

/-- `putCallbackPayload(payload)` from `src/routes/telegram.ts`: generate
a token, store `{payload, exp: Date.now() + CB_TTL_MS}` under it, then
(when the store has grown past 5000 entries) sweep entries whose `exp`
has passed, and return the token. -/
def putCallbackPayload (payload : String) (now : Nat) (rand : String)
    (m : List (String × CBEntry)) : String × List (String × CBEntry) :=
  let token := makeToken now rand
  let m1 := mapSet m token ⟨payload, now + CB_TTL_MS⟩
  let m2 := if 5000 < m1.length then m1.filter (fun e => now ≤ e.2.exp) else m1
  (token, m2)

theorem putCallbackPayload_fst (payload : String) (now : Nat) (rand : String)
    (m : List (String × CBEntry)) :
    (putCallbackPayload payload now rand m).1 = makeToken now rand := rfl

theorem mapGet_putCallbackPayload_self (payload : String) (now : Nat)
    (rand : String) (m : List (String × CBEntry)) :
    mapGet (putCallbackPayload payload now rand m).2 (makeToken now rand)
      = some ⟨payload, now + CB_TTL_MS⟩ := by
  simp only [putCallbackPayload]
  split
  · exact mapGet_filter_some (mapGet_mapSet_self m _ _) (by
      simp only [decide_eq_true_eq]
      exact Nat.le_add_right now CB_TTL_MS)
  · exact mapGet_mapSet_self m _ _

/-- **C6.** Round-trip with multi-use: `putCallbackPayload p` returns a
token that differs from `p` and fits the 64-byte transport budget, and
every `getCallbackPayload` on that token at or before the 10-minute
expiry returns `p` exactly and leaves the store unchanged (the entry is
not consumed), so repeated resolves all return `p`.  Hypotheses bound the
token components as the runtime does: `put` is only invoked for payloads
over the 60-byte threshold, `Date.now()` fits 10 base-36 digits, and the
`Math.random()` slice is at most 8 ASCII characters. -/
theorem put_resolve_roundtrip (m : List (String × CBEntry)) (p : String)
    (now : Nat) (rand : String) (hp : 60 < utf8Len p)
    (hnow : now < 36 ^ 10) (hlen : rand.length ≤ 8)
    (hascii : ∀ c ∈ rand.data, c.utf8Size = 1) :
    (putCallbackPayload p now rand m).1 ≠ p ∧
    utf8Len (putCallbackPayload p now rand m).1 ≤ 64 ∧
    (∀ now2, now2 ≤ now + CB_TTL_MS →
      getCallbackPayload (putCallbackPayload p now rand m).1 now2
          (putCallbackPayload p now rand m).2
        = (p, (putCallbackPayload p now rand m).2)) := by
  have htok := utf8Len_makeToken_le now rand hnow hlen hascii
  have hget := mapGet_putCallbackPayload_self p now rand m
  refine ⟨?_, ?_, ?_⟩
  · rw [putCallbackPayload_fst]
    intro hh
    rw [hh] at htok
    omega
  · rw [putCallbackPayload_fst]
    omega
  · intro now2 h2
    rw [putCallbackPayload_fst]
    simp [getCallbackPayload, hget, Nat.not_lt.mpr h2]

/-- A 62-byte (31-character) payload: character count far below the
60-byte threshold, byte count above it. -/
def longPayload : String := "яяяяяяяяяяяяяяяяяяяяяяяяяяяяяяя"

example : utf8Len longPayload = 62 := by decide
example : longPayload.length = 31 := by decide

/-- Witness for `put_resolve_roundtrip` at a concrete store and payload. -/
theorem put_resolve_roundtrip_witness :
    (putCallbackPayload longPayload 5 "abcdefgh" []).1 ≠ longPayload ∧
    utf8Len (putCallbackPayload longPayload 5 "abcdefgh" []).1 ≤ 64 ∧
    getCallbackPayload (putCallbackPayload longPayload 5 "abcdefgh" []).1 5
        (putCallbackPayload longPayload 5 "abcdefgh" []).2
      = (longPayload, (putCallbackPayload longPayload 5 "abcdefgh" []).2) := by
  have h := put_resolve_roundtrip [] longPayload 5 "abcdefgh" (by decide)
    (by decide) (by decide) (by decide)
  exact ⟨h.1, h.2.1, h.2.2 5 (by simp [CB_TTL_MS])⟩

/-! ## JavaScript string helpers -/

/-- `String.prototype.trim()` (on the whitespace characters of
`Char.isWhitespace`, the ones occurring in this system's data). -/
def jsTrim (s : String) : String :=
  ⟨List.rdropWhile Char.isWhitespace (s.data.dropWhile Char.isWhitespace)⟩

example : jsTrim "  a b \n" = "a b" := by decide
example : jsTrim "  " = "" := by decide

theorem jsTrim_idem (s : String) : jsTrim (jsTrim s) = jsTrim s := by
  unfold jsTrim
  congr 1
  have h1 : List.dropWhile Char.isWhitespace
      (List.rdropWhile Char.isWhitespace
        (s.data.dropWhile Char.isWhitespace))
      = List.rdropWhile Char.isWhitespace
          (s.data.dropWhile Char.isWhitespace) := by
    rw [List.dropWhile_eq_self_iff]
    intro hl
    have hpre := List.rdropWhile_prefix Char.isWhitespace
      (s.data.dropWhile Char.isWhitespace)
    have hlen : 0 < (s.data.dropWhile Char.isWhitespace).length :=
      lt_of_lt_of_le hl hpre.length_le
    have h0 := List.dropWhile_get_zero_not (p := Char.isWhitespace)
      s.data hlen
    simp only [List.get_eq_getElem] at h0 ⊢
    rwa [hpre.getElem hl]
  rw [h1, List.rdropWhile_idempotent]

/-- `s.replace(/\r\n/g, '\n')`: non-overlapping left-to-right CRLF → LF. -/
def replaceCRLF : List Char → List Char
  | [] => []
  | '\r' :: '\n' :: rest => '\n' :: replaceCRLF rest
  | c :: rest => c :: replaceCRLF rest

/-- `normalizeText` from `src/services/voiceflowRuntime.ts`:
`s.replace(/\r\n/g, '\n').trim()`. -/
def normalizeText (s : String) : String := jsTrim ⟨replaceCRLF s.data⟩

def isSpaceTab (c : Char) : Bool := c = ' ' || c = '\t'

/-- `t.replace(/[ \t]+/g, ' ')`: collapse each run of spaces/tabs to one
space (drop a space/tab whose successor is also one, else emit `' '`). -/
def collapseWSCore : List Char → List Char
  | [] => []
  | c :: cs =>
    if isSpaceTab c then
      match cs with
      | c2 :: _ =>
        if isSpaceTab c2 then collapseWSCore cs else ' ' :: collapseWSCore cs
      | [] => [' ']
    else c :: collapseWSCore cs

def collapseWS (s : String) : String := ⟨collapseWSCore s.data⟩

example : collapseWS "a \t  b" = "a b" := by decide

/-- `Array.prototype.join(sep)`. -/
def joinSep (sep : String) : List String → String
  | [] => ""
  | [s] => s
  | s :: rest => s ++ sep ++ joinSep sep rest

/-! ## Outbound button encoding (`telegramSendMessage`) -/

/-- A button of the canonical Voiceflow result (`VFButton`). -/
structure VFButton where
  title : String
  payload : String
  deriving Repr, DecidableEq

/-- The safety threshold compared against in `telegramSendMessage`:
`Buffer.byteLength(payload, 'utf8') <= 60`. -/
def CALLBACK_SAFE_BYTES : Nat := 60

/-- Telegram's hard `callback_data` limit (the source comment:
"Telegram callback_data ограничен 64 байтами"). -/
def TELEGRAM_CALLBACK_HARD_LIMIT : Nat := 64

/-- Effective outbound payload of one button in `telegramSendMessage`:
`String(b.payload ?? '').trim() || String(b.title ?? '').trim()`. -/
def buttonPayload (b : VFButton) : String :=
  if jsTrim b.payload = "" then jsTrim b.title else jsTrim b.payload

/-- The `inline_keyboard` mapping of `telegramSendMessage`: each button
becomes `(text, callback_data)` where the payload is sent literally iff
its UTF-8 byte count is within `CALLBACK_SAFE_BYTES`, else replaced by a
`putCallbackPayload` token.  The token store and the supply of random
slices are threaded through. -/
def encodeButtons (now : Nat) :
    List VFButton → List String → List (String × CBEntry) →
    List (String × String) × List (String × CBEntry) × List String
  | [], rands, m => ([], m, rands)
  | b :: rest, rands, m =>
    let p := buttonPayload b
    if utf8Len p ≤ CALLBACK_SAFE_BYTES then
      let r := encodeButtons now rest rands m
      ((b.title, p) :: r.1, r.2.1, r.2.2)
    else
      let t := putCallbackPayload p now (rands.headD "") m
      let r := encodeButtons now rest rands.tail t.2
      ((b.title, t.1) :: r.1, r.2.1, r.2.2)

/-- **C3.** A button payload is sent literally as `callback_data` iff its
UTF-8 byte length is at most the 60-byte safety threshold (strictly below
the 64-byte hard transport limit); otherwise the `callback_data` is a
`putCallbackPayload` token, which differs from the payload.  Byte length,
never character count, is what is measured, so a payload under the
threshold in characters but over it in bytes is routed through `put`. -/
theorem callback_data_byte_budget (b : VFButton) (rest : List VFButton)
    (now : Nat) (rands : List String) (m : List (String × CBEntry))
    (hnow : now < 36 ^ 10) (hr : (rands.headD "").length ≤ 8)
    (hascii : ∀ c ∈ (rands.headD "").data, c.utf8Size = 1) :
    CALLBACK_SAFE_BYTES < TELEGRAM_CALLBACK_HARD_LIMIT ∧
    (utf8Len (buttonPayload b) ≤ CALLBACK_SAFE_BYTES →
      (encodeButtons now (b :: rest) rands m).1.head?
        = some (b.title, buttonPayload b)) ∧
    (CALLBACK_SAFE_BYTES < utf8Len (buttonPayload b) →
      (encodeButtons now (b :: rest) rands m).1.head?
          = some (b.title,
              (putCallbackPayload (buttonPayload b) now (rands.headD "") m).1) ∧
      (putCallbackPayload (buttonPayload b) now (rands.headD "") m).1
        ≠ buttonPayload b) := by
  refine ⟨by decide, fun hle => ?_, fun hgt => ?_⟩
  · simp [encodeButtons, hle]
  · constructor
    · simp [encodeButtons, Nat.not_le.mpr hgt]
    · rw [putCallbackPayload_fst]
      have htok := utf8Len_makeToken_le now (rands.headD "") hnow hr hascii
      intro hh
      rw [hh] at htok
      simp [CALLBACK_SAFE_BYTES] at hgt
      omega

/-- Witness for `callback_data_byte_budget`: a short ASCII payload is
sent literally; a 31-character / 62-byte payload is tokenized. -/
theorem callback_data_byte_budget_witness :
    (utf8Len (buttonPayload ⟨"T", "yes"⟩) ≤ CALLBACK_SAFE_BYTES ∧
      (encodeButtons 5 [⟨"T", "yes"⟩] ["abcdefgh"] []).1.head?
        = some ("T", buttonPayload ⟨"T", "yes"⟩)) ∧
    (CALLBACK_SAFE_BYTES < utf8Len (buttonPayload ⟨"T", longPayload⟩) ∧
      (buttonPayload ⟨"T", longPayload⟩).length < CALLBACK_SAFE_BYTES ∧
      (encodeButtons 5 [⟨"T", longPayload⟩] ["abcdefgh"] []).1.head?
        = some ("T",
            (putCallbackPayload (buttonPayload ⟨"T", longPayload⟩) 5
              "abcdefgh" []).1) ∧
      (putCallbackPayload (buttonPayload ⟨"T", longPayload⟩) 5
          "abcdefgh" []).1 ≠ buttonPayload ⟨"T", longPayload⟩) :=
  ⟨⟨by decide,
    (callback_data_byte_budget ⟨"T", "yes"⟩ [] 5 ["abcdefgh"] []
      (by decide) (by decide) (by decide)).2.1 (by decide)⟩,
   ⟨by decide, by decide,
    ((callback_data_byte_budget ⟨"T", longPayload⟩ [] 5 ["abcdefgh"] []
      (by decide) (by decide) (by decide)).2.2 (by decide)).1,
    ((callback_data_byte_budget ⟨"T", longPayload⟩ [] 5 ["abcdefgh"] []
      (by decide) (by decide) (by decide)).2.2 (by decide)).2⟩⟩

/-! ## C9: token freshness at `putCallbackPayload` -/

/-- **C9 (amended).** `makeToken` never consults the store, so
`putCallbackPayload` preserves every live, unexpired entry exactly when
the freshly generated token string differs from that entry's key; when
the generated token coincides with a live key (same millisecond
timestamp and same random slice), the entry *is* overwritten — see
`put_token_collision_overwrites`. -/
theorem put_no_overwrite_unless_token_collision
    (m : List (String × CBEntry)) (p : String) (now : Nat) (rand : String)
    (k : String) (v : CBEntry) (hget : mapGet m k = some v)
    (hlive : now ≤ v.exp) (hne : k ≠ makeToken now rand) :
    mapGet (putCallbackPayload p now rand m).2 k = some v := by
  simp only [putCallbackPayload]
  split
  · refine mapGet_filter_some ?_ (by
      simp only [decide_eq_true_eq]
      exact hlive)
    rw [mapGet_mapSet_ne m _ (Ne.symm hne)]
    exact hget
  · rw [mapGet_mapSet_ne m _ (Ne.symm hne)]
    exact hget

/-- Witness for `put_no_overwrite_unless_token_collision`. -/
theorem put_no_overwrite_unless_token_collision_witness :
    mapGet (putCallbackPayload "Y" 5 "abcdefgh"
        [("k", ⟨"X", 700000⟩)]).2 "k" = some ⟨"X", 700000⟩ :=
  put_no_overwrite_unless_token_collision [("k", ⟨"X", 700000⟩)] "Y" 5
    "abcdefgh" "k" ⟨"X", 700000⟩ (by decide) (by decide) (by decide)

/-- **C9 (counterexample).** The claim "every call to `put` generates a
token that does not collide with any live, unexpired token already
present in the store" is false: a `put` with the same millisecond
timestamp and the same random slice as a live entry regenerates that
entry's token and overwrites its payload. -/
theorem put_token_collision_overwrites :
    mapGet [(makeToken 5 "abcdefgh", (⟨"X", 5 + CB_TTL_MS⟩ : CBEntry))]
        (makeToken 5 "abcdefgh") = some ⟨"X", 5 + CB_TTL_MS⟩ ∧
    (5 : Nat) ≤ 5 + CB_TTL_MS ∧
    (putCallbackPayload "Y" 5 "abcdefgh"
        [(makeToken 5 "abcdefgh", ⟨"X", 5 + CB_TTL_MS⟩)]).1
      = makeToken 5 "abcdefgh" ∧
    mapGet (putCallbackPayload "Y" 5 "abcdefgh"
        [(makeToken 5 "abcdefgh", ⟨"X", 5 + CB_TTL_MS⟩)]).2
        (makeToken 5 "abcdefgh") = some ⟨"Y", 5 + CB_TTL_MS⟩ ∧
    ("X" : String) ≠ "Y" := by
  decide

/-! ## Voiceflow trace normalization (`voiceflowInteract` response loop) -/

/-- JSON values reachable from `res.json()` (the `any`-typed payloads). -/
inductive JVal where
  | jnull
  | jbool (b : Bool)
  | jnum (n : Int)
  | jstr (s : String)
  | jarr (xs : List JVal)
  | jobj (fields : List (String × JVal))
  deriving Repr

/-- `JSON.stringify` escaping for the characters this system's data can
carry. -/
def jsonEscapeChar (c : Char) : List Char :=
  if c = '"' then ['\\', '"']
  else if c = '\\' then ['\\', '\\']
  else if c = '\n' then ['\\', 'n']
  else if c = '\r' then ['\\', 'r']
  else if c = '\t' then ['\\', 't']
  else [c]

mutual

/-- `JSON.stringify` on JSON data (total: the `try/catch` in
`payloadToString` can only fire on non-JSON values, which `res.json()`
never produces). -/
def jsonStringify : JVal → String
  | .jnull => "null"
  | .jbool b => if b then "true" else "false"
  | .jnum n => toString n
  | .jstr s => "\"" ++ ⟨s.data.flatMap jsonEscapeChar⟩ ++ "\""
  | .jarr xs => "[" ++ joinSep "," (jsonStringifyList xs) ++ "]"
  | .jobj fs => "\x7b" ++ joinSep "," (jsonStringifyFields fs) ++ "\x7d"

def jsonStringifyList : List JVal → List String
  | [] => []
  | v :: rest => jsonStringify v :: jsonStringifyList rest

def jsonStringifyFields : List (String × JVal) → List String
  | [] => []
  | (k, v) :: rest =>
    ("\"" ++ ⟨k.data.flatMap jsonEscapeChar⟩ ++ "\":" ++ jsonStringify v)
      :: jsonStringifyFields rest

end

/-- `payloadToString(payload, fallback)` from
`src/services/voiceflowRuntime.ts`: `null`/`undefined` → fallback,
strings pass through, numbers and booleans via `String(...)`, anything
else via `JSON.stringify`. -/
def payloadToString (payload : Option JVal) (fallback : String) : String :=
  match payload with
  | none => fallback
  | some .jnull => fallback
  | some (.jstr s) => s
  | some (.jnum n) => toString n
  | some (.jbool b) => if b then "true" else "false"
  | some v => jsonStringify v

/-- `VFChoiceButton.request`: `{ payload?: any }`. -/
structure ReqM where
  payload : Option JVal
  deriving Repr

/-- `VFChoiceButton`: `{ name?: string; request?: { payload?: any } }`. -/
structure BtnM where
  name : Option String
  request : Option ReqM
  deriving Repr

/-- The payload of a `VFMessage`: `message` for text/speak messages,
`buttons` for choice/buttons messages (an array whenever present). -/
structure MsgPayloadM where
  message : Option String
  buttons : Option (List BtnM)
  deriving Repr

/-- `VFMessage`: `{ type: string; payload?: ... }` (a missing `type`
simply fails every comparison). -/
structure MsgM where
  type : Option String
  payload : Option MsgPayloadM
  deriving Repr

/-- `VoiceflowRuntimeResponseItem`. -/
structure RTItem where
  type : Option String
  text : Option String
  messages : Option (List MsgM)
  payload : Option JVal
  deriving Repr

/-- `VFResult`: the canonical `{text, buttons}` response. -/
structure VFResult where
  text : String
  buttons : List VFButton
  deriving Repr, DecidableEq

/-- `pushUniqueText(out, seen, value)`: skip falsy values, normalize,
skip empty, dedupe globally on the space/tab-collapsed key. -/
def pushUniqueText (out : List String) (seen : List String)
    (value : Option String) : List String × List String :=
  match value with
  | none => (out, seen)
  | some v =>
    if v = "" then (out, seen)
    else
      let t := normalizeText v
      if t = "" then (out, seen)
      else
        let key := collapseWS t
        if seen.contains key then (out, seen)
        else (out ++ [t], seen ++ [key])

/-- The button loop of `voiceflowInteract` for one choice/buttons
message: entries with an empty trimmed title are skipped; the outbound
payload is `payloadToString(b.request?.payload, title).trim() || title`. -/
def extractButtons : List BtnM → List VFButton
  | [] => []
  | b :: rest =>
    let title := jsTrim (b.name.getD "")
    if title = "" then extractButtons rest
    else
      let p0 := jsTrim (payloadToString (b.request.bind ReqM.payload) title)
      ⟨title, if p0 = "" then title else p0⟩ :: extractButtons rest

/-- One iteration of the inner `for (const msg of msgs)` loop; the state
is `(texts, seenTexts, buttons)`. -/
def processMsg (st : List String × List String × List VFButton)
    (msg : MsgM) : List String × List String × List VFButton :=
  let st1 :=
    if (msg.type = some "text" ∨ msg.type = some "speak") ∧
        (msg.payload.bind MsgPayloadM.message).getD "" ≠ "" then
      let r := pushUniqueText st.1 st.2.1 (msg.payload.bind MsgPayloadM.message)
      (r.1, r.2, st.2.2)
    else st
  if (msg.type = some "choice" ∨ msg.type = some "buttons") ∧
      (msg.payload.bind MsgPayloadM.buttons).isSome then
    (st1.1, st1.2.1,
      st1.2.2 ++ extractButtons ((msg.payload.bind MsgPayloadM.buttons).getD []))
  else st1

/-- One iteration of the outer `for (const item of data)` loop:
`item.text` first, then the item's messages. -/
def processItem (st : List String × List String × List VFButton)
    (item : RTItem) : List String × List String × List VFButton :=
  let r := pushUniqueText st.1 st.2.1 item.text
  (item.messages.getD []).foldl processMsg (r.1, r.2, st.2.2)

/-- The pure tail of `voiceflowInteract`: normalize a parsed trace list
into the canonical `VFResult`, with the "Выбери вариант:" prompt when
there are buttons but no text and the "…" placeholder when there is
nothing at all. -/
def normalizeTrace (data : List RTItem) : VFResult :=
  let st := data.foldl processItem ([], [], [])
  let mergedText := jsTrim (joinSep "\n\n" st.1)
  if mergedText = "" ∧ st.2.2 ≠ [] then ⟨"Выбери вариант:", st.2.2⟩
  else if mergedText = "" ∧ st.2.2 = [] then ⟨"…", []⟩
  else ⟨mergedText, st.2.2⟩

/-- A trace item carrying only a top-level `text`. -/
def textItem (s : String) : RTItem := ⟨none, some s, none, none⟩

example : normalizeTrace [] = ⟨"…", []⟩ := by decide
example : normalizeTrace [textItem "A", textItem "B"] = ⟨"A\n\nB", []⟩ := by
  decide

/-- **C4 (counterexample).** The claim says the trace yielding lines
"A", "A", "B" produces final text `"A\nB"`; the code joins unique lines
with a blank-line separator, producing `"A\n\nB"`. -/
theorem dedup_separator_cex :
    (normalizeTrace [textItem "A", textItem "A", textItem "B"]).text
        = "A\n\nB" ∧
    (normalizeTrace [textItem "A", textItem "A", textItem "B"]).text
        ≠ "A\nB" := by
  decide

/-- **C4 (amended).** Text deduplication is global per normalization
call: `pushUniqueText` appends a normalized line iff its
whitespace-collapsed key has never been seen earlier in the same call
(recording the key), and the unique lines are joined with the blank-line
separator `"\n\n"`: extracted lines "A", "A", "B" produce `"A\n\nB"`,
and suppression is not merely adjacent — "A", "B", "A" also produces
`"A\n\nB"`. -/
theorem global_text_dedup :
    (∀ (out seen : List String) (v : String),
      (v ≠ "" → normalizeText v ≠ "" →
        seen.contains (collapseWS (normalizeText v)) = false →
        pushUniqueText out seen (some v)
          = (out ++ [normalizeText v],
             seen ++ [collapseWS (normalizeText v)])) ∧
      (seen.contains (collapseWS (normalizeText v)) = true →
        pushUniqueText out seen (some v) = (out, seen))) ∧
    normalizeTrace [textItem "A", textItem "A", textItem "B"]
      = ⟨"A\n\nB", []⟩ ∧
    normalizeTrace [textItem "A", textItem "B", textItem "A"]
      = ⟨"A\n\nB", []⟩ := by
  refine ⟨fun out seen v => ⟨fun hv ht hc => ?_, fun hc => ?_⟩,
    by decide, by decide⟩
  · have hc' : collapseWS (normalizeText v) ∉ seen := by simpa using hc
    simp [pushUniqueText, hv, ht, hc']
  · have hc' : collapseWS (normalizeText v) ∈ seen := by simpa using hc
    by_cases hv : v = ""
    · simp [pushUniqueText, hv]
    · by_cases ht : normalizeText v = ""
      · simp [pushUniqueText, hv, ht]
      · simp [pushUniqueText, hv, ht, hc']

/-- Witness for `global_text_dedup`: a fresh line is appended with its
key recorded; a line whose key was seen earlier in the call is dropped
even though not adjacent to its duplicate. -/
theorem global_text_dedup_witness :
    pushUniqueText [] [] (some "A") = (["A"], ["A"]) ∧
    pushUniqueText ["A", "B"] ["A", "B"] (some " A ") = (["A", "B"], ["A", "B"]) :=
  ⟨(global_text_dedup.1 [] [] "A").1 (by decide) (by decide) (by decide),
   (global_text_dedup.1 ["A", "B"] ["A", "B"] " A ").2 (by decide)⟩

/-- **C5.** Trace normalization is total on every trace list: it always
returns a canonical `{text, buttons}` result with non-empty text (the
placeholder/prompt fallbacks), the empty list yields `⟨"…", []⟩`,
messages with no payload and items with no usable text or messages are
skipped rather than rejected, and a choice entry whose nested request
payload is a non-string value is serialized, not a failure. -/
theorem normalize_total_skips_malformed :
    (∀ items : List RTItem, (normalizeTrace items).text ≠ "") ∧
    normalizeTrace [] = ⟨"…", []⟩ ∧
    (∀ st msg, msg.payload = none → processMsg st msg = st) ∧
    (∀ st item, (item.text = none ∨ item.text = some "") →
      (item.messages = none ∨ item.messages = some []) →
      processItem st item = st) ∧
    normalizeTrace [⟨some "weird", none,
        some [⟨none, none⟩,
              ⟨some "choice",
                some ⟨none, some [⟨none, some ⟨some (.jnum 5)⟩⟩,
                                  ⟨some "B", some ⟨some (.jnum 7)⟩⟩]⟩⟩,
              ⟨some "text", some ⟨some "", none⟩⟩],
        some .jnull⟩]
      = ⟨"Выбери вариант:", [⟨"B", "7"⟩]⟩ := by
  refine ⟨fun items => ?_, by decide, fun st msg h => ?_,
    fun st item h1 h2 => ?_, by decide⟩
  · simp only [normalizeTrace]
    split
    · exact fun h => absurd h (show ¬("Выбери вариант:" = "") by decide)
    · split
      · exact fun h => absurd h (show ¬("…" = "") by decide)
      · rename_i hcond1 hcond2
        intro habs
        rcases eq_or_ne (items.foldl processItem ([], [], [])).2.2 [] with hb | hb
        · exact hcond2 ⟨habs, hb⟩
        · exact hcond1 ⟨habs, hb⟩
  · simp [processMsg, h]
  · rcases h1 with h1 | h1 <;> rcases h2 with h2 | h2 <;>
      simp [processItem, pushUniqueText, h1, h2]

/-- Witness for `normalize_total_skips_malformed`: the totality conjunct
at a concrete list, the skip conjuncts at a payload-less message and a
blank item. -/
theorem normalize_total_skips_malformed_witness :
    (normalizeTrace [textItem "hi"]).text ≠ "" ∧
    processMsg ([], [], []) ⟨some "text", none⟩ = ([], [], []) ∧
    processItem ([], [], []) ⟨some "weird", none, none, some .jnull⟩
      = ([], [], []) :=
  ⟨normalize_total_skips_malformed.1 [textItem "hi"],
   normalize_total_skips_malformed.2.2.1 ([], [], []) ⟨some "text", none⟩ rfl,
   normalize_total_skips_malformed.2.2.2.1 ([], [], [])
     ⟨some "weird", none, none, some .jnull⟩ (Or.inl rfl) (Or.inl rfl)⟩

/-- **C8.** Button extraction per choice/buttons item: an entry whose
trimmed title is empty is skipped entirely; an entry with a non-empty
title takes its payload from the nested request payload — the trimmed
string itself when it is a non-blank string, the title when the payload
is missing (`undefined`/`null`) or trims to empty — and the spec's
example `[{name:"Yes", request:{payload:"yes_1"}}, {name:"  "}]` yields
exactly the one button `{title:"Yes", payload:"yes_1"}`. -/
theorem choice_button_extraction :
    (∀ (b : BtnM) (rest : List BtnM), jsTrim (b.name.getD "") = "" →
      extractButtons (b :: rest) = extractButtons rest) ∧
    (∀ (b : BtnM) (rest : List BtnM), jsTrim (b.name.getD "") ≠ "" →
      (b.request.bind ReqM.payload = none ∨
          b.request.bind ReqM.payload = some .jnull →
        extractButtons (b :: rest)
          = ⟨jsTrim (b.name.getD ""), jsTrim (b.name.getD "")⟩
              :: extractButtons rest) ∧
      (∀ s, b.request.bind ReqM.payload = some (.jstr s) → jsTrim s ≠ "" →
        extractButtons (b :: rest)
          = ⟨jsTrim (b.name.getD ""), jsTrim s⟩ :: extractButtons rest) ∧
      (∀ s, b.request.bind ReqM.payload = some (.jstr s) → jsTrim s = "" →
        extractButtons (b :: rest)
          = ⟨jsTrim (b.name.getD ""), jsTrim (b.name.getD "")⟩
              :: extractButtons rest)) ∧
    normalizeTrace [⟨none, none,
        some [⟨some "choice",
          some ⟨none, some [⟨some "Yes", some ⟨some (.jstr "yes_1")⟩⟩,
                            ⟨some "  ", none⟩]⟩⟩], none⟩]
      = ⟨"Выбери вариант:", [⟨"Yes", "yes_1"⟩]⟩ := by
  refine ⟨fun b rest ht => ?_, fun b rest ht => ⟨fun hp => ?_,
    fun s hp hs => ?_, fun s hp hs => ?_⟩, by decide⟩
  · simp [extractButtons, ht]
  · rcases hp with hp | hp <;>
      simp [extractButtons, ht, hp, payloadToString, jsTrim_idem, ht]
  · simp [extractButtons, ht, hp, payloadToString, hs]
  · simp [extractButtons, ht, hp, payloadToString, hs, jsTrim_idem]

/-- Witness for `choice_button_extraction`: the blank-title entry is
skipped; a string payload passes through; a missing payload falls back
to the title. -/
theorem choice_button_extraction_witness :
    extractButtons [⟨some "  ", none⟩] = [] ∧
    extractButtons [⟨some "Yes", some ⟨some (.jstr "yes_1")⟩⟩]
      = [⟨"Yes", "yes_1"⟩] ∧
    extractButtons [⟨some "No", none⟩] = [⟨"No", "No"⟩] :=
  ⟨choice_button_extraction.1 ⟨some "  ", none⟩ [] (by decide),
   (choice_button_extraction.2.1 ⟨some "Yes", some ⟨some (.jstr "yes_1")⟩⟩ []
     (by decide)).2.1 "yes_1" rfl (by decide),
   (choice_button_extraction.2.1 ⟨some "No", none⟩ []
     (by decide)).1 (Or.inl rfl)⟩

/-! ## The webhook orchestrator (`telegramRoutes` handler)

The handler is embedded as a pure step function over an explicit `World`
(the two process-wide maps).  The network is out of the model: the
Voiceflow response is an oracle argument `vfResp` (the success path; a
failed upstream call only swaps the outbound text for a fixed apology),
and the outbound Telegram calls are recorded as an event list. -/

/-- Observable effects of one webhook invocation: a Voiceflow interact
call (`none` input = launch), a best-effort `answerCallbackQuery`, or an
outbound `sendMessage` with its encoded keyboard rows. -/
inductive Ev where
  | vf (userId : String) (input : Option String)
  | ansCB (cid : String)
  | send (chatId : Int) (text : String) (dataRows : List (String × String))
  deriving Repr, DecidableEq

def Ev.isVf : Ev → Bool
  | .vf _ _ => true
  | _ => false

def Ev.isSend : Ev → Bool
  | .send _ _ _ => true
  | _ => false

/-- Number of upstream Voiceflow calls in an event list. -/
def countVf (evs : List Ev) : Nat := (evs.filter Ev.isVf).length

/-- Number of outbound `sendMessage` calls in an event list. -/
def countSend (evs : List Ev) : Nat := (evs.filter Ev.isSend).length

/-- The process-wide mutable state: the `seen` anti-replay map and the
`cbStore` token map. -/
structure World where
  seen : List (String × Nat)
  cb : List (String × CBEntry)
  deriving Repr

/-- `callback_query.message`: `{ message_id?, chat: { id } }`. -/
structure CBMsg where
  message_id : Option Int
  chatId : Int
  deriving Repr

/-- `callback_query` of the update schema. -/
structure CBQ where
  id : Option String
  data : Option String
  message : Option CBMsg
  fromId : Option Int
  deriving Repr

/-- `message` of the update schema. -/
structure MsgU where
  message_id : Option Int
  text : Option String
  chatId : Int
  fromId : Option Int
  deriving Repr

/-- A parsed Telegram update (the fields the handler reads). -/
structure Update where
  update_id : Option Int
  message : Option MsgU
  callback_query : Option CBQ
  deriving Repr

/-- `buildReply(vf)`. -/
def buildReply (vf : VFResult) : String × List VFButton :=
  let text := jsTrim vf.text
  if text = "" ∧ vf.buttons ≠ [] then ("Выбери вариант:", vf.buttons)
  else if text = "" ∧ vf.buttons = [] then ("…", [])
  else (text, vf.buttons)

/-- `telegramSendMessage(chatId, text, buttons)`: `'…'` for blank text,
buttons encoded against the byte budget; returns the recorded send event
and the updated token store / random supply. -/
def sendMessageModel (chatId : Int) (text : String)
    (buttons : List VFButton) (now : Nat) (rands : List String)
    (cb : List (String × CBEntry)) :
    Ev × List (String × CBEntry) × List String :=
  let safeText := if jsTrim text = "" then "…" else jsTrim text
  let r := encodeButtons now buttons rands cb
  (.send chatId safeText r.1, r.2.1, r.2.2)

/-- The `/help` reply of the handler. -/
def HELP_TEXT : String :=
  "Команды:\n/start — начать\n/help — помощь\n\nИли просто нажимай кнопки 🙂"

/-- Callback path after the per-click admission: acknowledge (only for a
truthy id), resolve the callback data, call Voiceflow, send the reply. -/
def afterCbAdmit (userId : String) (cid : Option String) (d : String)
    (chatId : Int) (w : World) (now : Nat) (rands : List String)
    (vfResp : VFResult) : List Ev × World :=
  let ackEvs : List Ev :=
    match cid with
    | some c => if c ≠ "" then [.ansCB c] else []
    | none => []
  let r1 := getCallbackPayload d now w.cb
  let out := buildReply vfResp
  let r2 := sendMessageModel chatId out.1 out.2 now rands r1.2
  (ackEvs ++ [.vf userId (some r1.1), r2.1], ⟨w.seen, r2.2.1⟩)

/-- Branch 1 of the handler: an inline-button click.  A truthy callback
id gets its own `c:`-namespaced admission; rejection terminates. -/
def callbackFlow (cb : CBQ) (d : String) (chatId : Int) (w : World)
    (now : Nat) (rands : List String) (vfResp : VFResult) :
    List Ev × World :=
  let userId := toString (cb.fromId.getD chatId)
  match cb.id with
  | some cid =>
    if cid ≠ "" then
      let r := markSeen ("c:" ++ cid) now w.seen
      if r.1 then
        afterCbAdmit userId (some cid) d chatId ⟨r.2, w.cb⟩ now rands vfResp
      else ([], ⟨r.2, w.cb⟩)
    else afterCbAdmit userId (some cid) d chatId w now rands vfResp
  | none => afterCbAdmit userId none d chatId w now rands vfResp

/-- The command dispatch of the message path: `/start` launches, `/help`
answers locally without an upstream call, anything else is forwarded. -/
def mainMessage (userId : String) (chatId : Int) (text : String)
    (w : World) (now : Nat) (rands : List String) (vfResp : VFResult) :
    List Ev × World :=
  if text = "/start" then
    let out := buildReply vfResp
    let r := sendMessageModel chatId out.1 out.2 now rands w.cb
    ([.vf userId none, r.1], ⟨w.seen, r.2.1⟩)
  else if text = "/help" then
    let r := sendMessageModel chatId HELP_TEXT [] now rands w.cb
    ([r.1], ⟨w.seen, r.2.1⟩)
  else
    let out := buildReply vfResp
    let r := sendMessageModel chatId out.1 out.2 now rands w.cb
    ([.vf userId (some text), r.1], ⟨w.seen, r.2.1⟩)

/-- Branch 2 of the handler: a plain message.  Requires a truthy chat id
and non-blank trimmed text; a numeric `message_id` gets its own
`m:`-namespaced admission. -/
def messageFlow (u : Update) (w : World) (now : Nat)
    (rands : List String) (vfResp : VFResult) : List Ev × World :=
  match u.message with
  | none => ([], w)
  | some m =>
    if m.chatId = 0 then ([], w)
    else
      let userId := toString (m.fromId.getD m.chatId)
      let text := jsTrim (m.text.getD "")
      if text = "" then ([], w)
      else
        match m.message_id with
        | some mid =>
          let r := markSeen
            ("m:" ++ toString m.chatId ++ ":" ++ toString mid) now w.seen
          if r.1 then
            mainMessage userId m.chatId text ⟨r.2, w.cb⟩ now rands vfResp
          else ([], ⟨r.2, w.cb⟩)
        | none => mainMessage userId m.chatId text w now rands vfResp

/-- The handler after the `update_id` admission: the callback branch
fires on truthy `callback_query?.data` and `...message?.chat?.id`,
otherwise the message branch. -/
def handleAfterAdmission (u : Update) (w : World) (now : Nat)
    (rands : List String) (vfResp : VFResult) : List Ev × World :=
  match u.callback_query with
  | some cb =>
    match cb.data, cb.message with
    | some d, some cbm =>
      if d ≠ "" ∧ cbm.chatId ≠ 0 then
        callbackFlow cb d cbm.chatId w now rands vfResp
      else messageFlow u w now rands vfResp
    | _, _ => messageFlow u w now rands vfResp
  | none => messageFlow u w now rands vfResp

/-- One invocation of the webhook handler: the `u:`-namespaced
anti-replay admission on a numeric `update_id` is the first gate; a
rejected duplicate terminates with no events at all. -/
def handleUpdate (u : Update) (w : World) (now : Nat)
    (rands : List String) (vfResp : VFResult) : List Ev × World :=
  match u.update_id with
  | some uid =>
    let r := markSeen ("u:" ++ toString uid) now w.seen
    if r.1 then handleAfterAdmission u ⟨r.2, w.cb⟩ now rands vfResp
    else ([], ⟨r.2, w.cb⟩)
  | none => handleAfterAdmission u w now rands vfResp

example :
    countVf (handleUpdate ⟨some 7, some ⟨none, some "hi", 5, some 9⟩, none⟩
      ⟨[], []⟩ 1 [] ⟨"ok", []⟩).1 = 1 := by decide

/-! ### Namespaced admission keys never collide across event kinds -/

theorem ukey_ne_ckey (x y : String) : "u:" ++ x ≠ "c:" ++ y := by
  intro h
  have h2 := congrArg String.data h
  rw [show ("u:" ++ x).data = 'u' :: ':' :: x.data from rfl,
      show ("c:" ++ y).data = 'c' :: ':' :: y.data from rfl] at h2
  simp at h2

theorem ukey_ne_mkey (x y : String) : "u:" ++ x ≠ "m:" ++ y := by
  intro h
  have h2 := congrArg String.data h
  rw [show ("u:" ++ x).data = 'u' :: ':' :: x.data from rfl,
      show ("m:" ++ y).data = 'm' :: ':' :: y.data from rfl] at h2
  simp at h2

theorem ukey_ne_mkey2 (x a b : String) :
    "u:" ++ x ≠ "m:" ++ a ++ ":" ++ b := by
  intro h
  have h2 := congrArg String.data h
  rw [show ("u:" ++ x).data = 'u' :: ':' :: x.data from rfl,
      show ("m:" ++ a ++ ":" ++ b).data
        = 'm' :: ':' :: ((a.data ++ [':']) ++ b.data) from rfl] at h2
  simp at h2

/-! ### Preservation of an admission entry across the handler -/

theorem markSeen_false_of_window (k : String) (now : Nat)
    {m : List (String × Nat)} {t0 : Nat} (hget : mapGet m k = some t0)
    (h0 : t0 ≠ 0) (hwin : now - t0 < SEEN_TTL_MS) :
    (markSeen k now m).1 = false := by
  have hm1 : mapGet (if 5000 < m.length then sweepSeen now m else m) k
      = some t0 := by
    split
    · exact mapGet_filter_some hget (by simp only [decide_eq_true_eq]; omega)
    · exact hget
  unfold markSeen
  simp only [hm1]
  rw [if_pos ⟨h0, hwin⟩]

theorem mapGet_markSeen_preserved {m : List (String × Nat)} {k q : String}
    {t : Nat} (now : Nat) (hget : mapGet m k = some t)
    (hfresh : now - t ≤ SEEN_TTL_MS) (hne : q ≠ k) :
    mapGet (markSeen q now m).2 k = some t := by
  have hm1 : mapGet (if 5000 < m.length then sweepSeen now m else m) k
      = some t := by
    split
    · exact mapGet_filter_some hget (by
        simp only [decide_eq_true_eq]; exact hfresh)
    · exact hget
  simp only [markSeen]
  cases hg : mapGet (if 5000 < m.length then sweepSeen now m else m) q
  · simp only [hg]
    rw [mapGet_mapSet_ne _ _ hne]
    exact hm1
  · simp only [hg]
    split
    · exact hm1
    · rw [mapGet_mapSet_ne _ _ hne]
      exact hm1

theorem afterCbAdmit_seen (userId : String) (cid : Option String)
    (d : String) (chatId : Int) (w : World) (now : Nat)
    (rands : List String) (vfResp : VFResult) :
    (afterCbAdmit userId cid d chatId w now rands vfResp).2.seen
      = w.seen := rfl

theorem mainMessage_seen (userId : String) (chatId : Int) (text : String)
    (w : World) (now : Nat) (rands : List String) (vfResp : VFResult) :
    (mainMessage userId chatId text w now rands vfResp).2.seen = w.seen := by
  unfold mainMessage
  by_cases h1 : text = "/start" <;> by_cases h2 : text = "/help" <;>
    simp [h1, h2]

theorem mainMessage_counts (userId : String) (chatId : Int) (text : String)
    (w : World) (now : Nat) (rands : List String) (vfResp : VFResult)
    (h : text ≠ "/help") :
    countVf (mainMessage userId chatId text w now rands vfResp).1 = 1 ∧
    countSend (mainMessage userId chatId text w now rands vfResp).1 = 1 := by
  unfold mainMessage
  by_cases h1 : text = "/start" <;>
    simp [h1, h, countVf, countSend, sendMessageModel, Ev.isVf, Ev.isSend,
      List.filter]

theorem afterCbAdmit_counts_none (userId : String) (d : String)
    (chatId : Int) (w : World) (now : Nat) (rands : List String)
    (vfResp : VFResult) :
    countVf (afterCbAdmit userId none d chatId w now rands vfResp).1 = 1 ∧
    countSend (afterCbAdmit userId none d chatId w now rands vfResp).1 = 1 := by
  simp [afterCbAdmit, countVf, countSend, sendMessageModel, Ev.isVf,
    Ev.isSend, List.filter]

theorem mapGet_messageFlow_preserved (u : Update) (w : World) (now : Nat)
    (rands : List String) (vfResp : VFResult) {k : String} {t : Nat}
    (hget : mapGet w.seen k = some t) (hfresh : now - t ≤ SEEN_TTL_MS)
    (hk : ∀ s, k ≠ "m:" ++ s) :
    mapGet (messageFlow u w now rands vfResp).2.seen k = some t := by
  unfold messageFlow
  cases hm : u.message with
  | none => exact hget
  | some m =>
    by_cases hc : m.chatId = 0
    · simp only [hc, if_pos rfl]
      exact hget
    · simp only [if_neg hc]
      by_cases htx : jsTrim (m.text.getD "") = ""
      · simp only [htx, if_pos rfl]
        exact hget
      · simp only [if_neg htx]
        cases hmid : m.message_id with
        | none =>
          rw [mainMessage_seen]
          exact hget
        | some mid =>
          have hpres := mapGet_markSeen_preserved
            (q := "m:" ++ toString m.chatId ++ ":" ++ toString mid)
            now hget hfresh (Ne.symm (hk _))
          cases hms : (markSeen
              ("m:" ++ toString m.chatId ++ ":" ++ toString mid) now
              w.seen).1
          · simp only [hms, Bool.false_eq_true, if_neg]
            exact hpres
          · simp only [hms, if_pos]
            rw [mainMessage_seen]
            exact hpres

theorem mapGet_callbackFlow_preserved (cb : CBQ) (d : String)
    (chatId : Int) (w : World) (now : Nat) (rands : List String)
    (vfResp : VFResult) {k : String} {t : Nat}
    (hget : mapGet w.seen k = some t) (hfresh : now - t ≤ SEEN_TTL_MS)
    (hk : ∀ s, k ≠ "c:" ++ s) :
    mapGet (callbackFlow cb d chatId w now rands vfResp).2.seen k
      = some t := by
  cases hid : cb.id with
  | none =>
    simp only [callbackFlow, hid]
    rw [afterCbAdmit_seen]
    exact hget
  | some cid =>
    simp only [callbackFlow, hid]
    have hpres := mapGet_markSeen_preserved (q := "c:" ++ cid) now hget
      hfresh (Ne.symm (hk _))
    split
    · split
      · rw [afterCbAdmit_seen]
        exact hpres
      · exact hpres
    · rw [afterCbAdmit_seen]
      exact hget

theorem mapGet_handleAfterAdmission_preserved (u : Update) (w : World)
    (now : Nat) (rands : List String) (vfResp : VFResult) {k : String}
    {t : Nat} (hget : mapGet w.seen k = some t)
    (hfresh : now - t ≤ SEEN_TTL_MS) (hkc : ∀ s, k ≠ "c:" ++ s)
    (hkm : ∀ s, k ≠ "m:" ++ s) :
    mapGet (handleAfterAdmission u w now rands vfResp).2.seen k
      = some t := by
  cases hcb : u.callback_query with
  | none =>
    simp only [handleAfterAdmission, hcb]
    exact mapGet_messageFlow_preserved u w now rands vfResp hget hfresh hkm
  | some cb =>
    cases hd : cb.data with
    | none =>
      simp only [handleAfterAdmission, hcb, hd]
      exact mapGet_messageFlow_preserved u w now rands vfResp hget hfresh hkm
    | some d =>
      cases hcm : cb.message with
      | none =>
        simp only [handleAfterAdmission, hcb, hd, hcm]
        exact mapGet_messageFlow_preserved u w now rands vfResp hget hfresh hkm
      | some cbm =>
        simp only [handleAfterAdmission, hcb, hd, hcm]
        split
        · exact mapGet_callbackFlow_preserved _ _ _ w now rands vfResp hget
            hfresh hkc
        · exact mapGet_messageFlow_preserved u w now rands vfResp hget
            hfresh hkm

/-- **C7 (counterexample).** The claim quantifies over *any* two inbound
events with the same numeric update identifier; an update carrying an
`update_id` but no message and no callback (e.g. an `edited_message`
delivery) is admitted and then dropped, so the pair makes zero upstream
calls and zero sends, not exactly one of each. -/
theorem orchestrator_claim_cex :
    countVf ((handleUpdate ⟨some 7, none, none⟩ ⟨[], []⟩ 1 [] ⟨"hi", []⟩).1
        ++ (handleUpdate ⟨some 7, none, none⟩
            (handleUpdate ⟨some 7, none, none⟩ ⟨[], []⟩ 1 [] ⟨"hi", []⟩).2
            2 [] ⟨"hi", []⟩).1) ≠ 1 ∧
    countSend ((handleUpdate ⟨some 7, none, none⟩ ⟨[], []⟩ 1 [] ⟨"hi", []⟩).1
        ++ (handleUpdate ⟨some 7, none, none⟩
            (handleUpdate ⟨some 7, none, none⟩ ⟨[], []⟩ 1 [] ⟨"hi", []⟩).2
            2 [] ⟨"hi", []⟩).1) ≠ 1 := by
  decide

/-- **C7 (amended).** For any two inbound events carrying the same
numeric update identifier, the second one delivered inside the 5-minute
admission window terminates at admission with no effect at all (no
upstream call, no send, no acknowledgment); when the first event is a
conversational one — a plain text message that is not `/help`, with a
truthy chat id and fresh admission keys — the pair therefore makes
exactly one upstream Voiceflow call and exactly one outbound send. -/
theorem orchestrator_admission_dedup
    (u : Update) (uid : Int) (w : World) (now1 now2 : Nat)
    (rs1 rs2 : List String) (vf1 vf2 : VFResult)
    (huid : u.update_id = some uid) (h0 : 0 < now1)
    (hfresh : mapGet w.seen ("u:" ++ toString uid) = none)
    (hwin : now2 - now1 < SEEN_TTL_MS) :
    (handleUpdate u (handleUpdate u w now1 rs1 vf1).2 now2 rs2 vf2).1 = [] ∧
    (∀ m, u.callback_query = none → u.message = some m → m.chatId ≠ 0 →
      jsTrim (m.text.getD "") ≠ "" → jsTrim (m.text.getD "") ≠ "/help" →
      (∀ mid, m.message_id = some mid →
        mapGet w.seen ("m:" ++ toString m.chatId ++ ":" ++ toString mid)
          = none) →
      countVf (handleUpdate u w now1 rs1 vf1).1 = 1 ∧
      countSend (handleUpdate u w now1 rs1 vf1).1 = 1) := by
  have hms1 := markSeen_of_absent (m := w.seen)
    (k := "u:" ++ toString uid) now1 hfresh
  have h1 : (markSeen ("u:" ++ toString uid) now1 w.seen).1 = true := by
    rw [hms1]
  have h2 : mapGet (markSeen ("u:" ++ toString uid) now1 w.seen).2
      ("u:" ++ toString uid) = some now1 :=
    mapGet_markSeen_self now1 h1
  have hrun1 : handleUpdate u w now1 rs1 vf1
      = handleAfterAdmission u
          ⟨(markSeen ("u:" ++ toString uid) now1 w.seen).2, w.cb⟩
          now1 rs1 vf1 := by
    simp only [handleUpdate, huid, h1, if_true]
  have hget2 : mapGet (handleUpdate u w now1 rs1 vf1).2.seen
      ("u:" ++ toString uid) = some now1 := by
    rw [hrun1]
    exact mapGet_handleAfterAdmission_preserved u _ now1 rs1 vf1 h2
      (by rw [Nat.sub_self]; exact Nat.zero_le _)
      (fun s => ukey_ne_ckey _ s) (fun s => ukey_ne_mkey _ s)
  constructor
  · have hfalse : (markSeen ("u:" ++ toString uid) now2
        (handleUpdate u w now1 rs1 vf1).2.seen).1 = false :=
      markSeen_false_of_window _ now2 hget2 (by omega) hwin
    generalize hW : (handleUpdate u w now1 rs1 vf1).2 = W1 at hfalse ⊢
    simp only [handleUpdate, huid, hfalse, Bool.false_eq_true, if_false]
  · intro m hcb hmsg hchat htext hhelp hmid
    rw [hrun1]
    simp only [handleAfterAdmission, hcb, messageFlow, hmsg]
    rw [if_neg hchat, if_neg htext]
    cases hmidq : m.message_id with
    | none =>
      exact mainMessage_counts _ _ _ _ _ _ _ hhelp
    | some mid =>
      have hmk : mapGet (markSeen ("u:" ++ toString uid) now1 w.seen).2
          ("m:" ++ toString m.chatId ++ ":" ++ toString mid) = none := by
        rw [hms1]
        show mapGet (mapSet
          (if 5000 < w.seen.length then sweepSeen now1 w.seen else w.seen)
          ("u:" ++ toString uid) now1)
          ("m:" ++ toString m.chatId ++ ":" ++ toString mid) = none
        rw [mapGet_mapSet_ne _ _
          (ukey_ne_mkey2 (toString uid) (toString m.chatId) (toString mid))]
        split
        · exact mapGet_filter_none (hmid mid hmidq)
        · exact hmid mid hmidq
      have htrue : (markSeen
          ("m:" ++ toString m.chatId ++ ":" ++ toString mid) now1
          (markSeen ("u:" ++ toString uid) now1 w.seen).2).1 = true := by
        rw [markSeen_of_absent now1 hmk]
      simp only [htrue, if_true]
      exact mainMessage_counts _ _ _ _ _ _ _ hhelp

/-- Witness for `orchestrator_admission_dedup`: a concrete text-message
update processed twice back to back — the second run is silent, the pair
makes one Voiceflow call and one send. -/
theorem orchestrator_admission_dedup_witness :
    (handleUpdate ⟨some 7, some ⟨some 3, some "hello", 5, some 9⟩, none⟩
        (handleUpdate ⟨some 7, some ⟨some 3, some "hello", 5, some 9⟩, none⟩
          ⟨[], []⟩ 1 [] ⟨"ok", []⟩).2 2 [] ⟨"ok", []⟩).1 = [] ∧
    countVf (handleUpdate
        ⟨some 7, some ⟨some 3, some "hello", 5, some 9⟩, none⟩
        ⟨[], []⟩ 1 [] ⟨"ok", []⟩).1 = 1 ∧
    countSend (handleUpdate
        ⟨some 7, some ⟨some 3, some "hello", 5, some 9⟩, none⟩
        ⟨[], []⟩ 1 [] ⟨"ok", []⟩).1 = 1 := by
  have h := orchestrator_admission_dedup
    ⟨some 7, some ⟨some 3, some "hello", 5, some 9⟩, none⟩ 7 ⟨[], []⟩
    1 2 [] [] ⟨"ok", []⟩ ⟨"ok", []⟩ rfl (by decide) rfl (by decide)
  have h2 := h.2 ⟨some 3, some "hello", 5, some 9⟩ rfl rfl (by decide)
    (by decide) (by decide) (fun _ _ => rfl)
  exact ⟨h.1, h2.1, h2.2⟩

/-- **C10.** When a message event carries neither a numeric `update_id`
nor a numeric `message_id` (and when a callback event has no callback id
and no `update_id`), no admission key is recorded at all — the `seen`
map is left untouched — and the event runs the full conversational path,
so each redelivery triggers its own upstream call and outbound send. -/
theorem no_admission_key_recorded (w : World) (now : Nat)
    (rands : List String) (vf : VFResult) :
    (∀ u m, u.update_id = none → u.callback_query = none →
      u.message = some m → m.message_id = none → m.chatId ≠ 0 →
      jsTrim (m.text.getD "") ≠ "" → jsTrim (m.text.getD "") ≠ "/help" →
      (handleUpdate u w now rands vf).2.seen = w.seen ∧
      countVf (handleUpdate u w now rands vf).1 = 1 ∧
      countSend (handleUpdate u w now rands vf).1 = 1) ∧
    (∀ u cb d cbm, u.update_id = none → u.callback_query = some cb →
      cb.id = none → cb.data = some d → d ≠ "" →
      cb.message = some cbm → cbm.chatId ≠ 0 →
      (handleUpdate u w now rands vf).2.seen = w.seen ∧
      countVf (handleUpdate u w now rands vf).1 = 1 ∧
      countSend (handleUpdate u w now rands vf).1 = 1) := by
  constructor
  · intro u m hu hcb hmsg hmid hchat htext hhelp
    have hred : handleUpdate u w now rands vf
        = mainMessage (toString (m.fromId.getD m.chatId)) m.chatId
            (jsTrim (m.text.getD "")) w now rands vf := by
      simp only [handleUpdate, hu, handleAfterAdmission, hcb, messageFlow,
        hmsg]
      rw [if_neg hchat, if_neg htext]
      simp only [hmid]
    rw [hred]
    exact ⟨mainMessage_seen _ _ _ _ _ _ _,
      (mainMessage_counts _ _ _ _ _ _ _ hhelp).1,
      (mainMessage_counts _ _ _ _ _ _ _ hhelp).2⟩
  · intro u cb d cbm hu hcb hid hd hdne hcm hchat
    have hred : handleUpdate u w now rands vf
        = afterCbAdmit (toString (cb.fromId.getD cbm.chatId)) none d
            cbm.chatId w now rands vf := by
      simp only [handleUpdate, hu, handleAfterAdmission, hcb, hd, hcm]
      rw [if_pos ⟨hdne, hchat⟩]
      simp only [callbackFlow, hid]
    rw [hred]
    exact ⟨afterCbAdmit_seen _ _ _ _ _ _ _ _,
      (afterCbAdmit_counts_none _ _ _ _ _ _ _).1,
      (afterCbAdmit_counts_none _ _ _ _ _ _ _).2⟩

/-- Witness for `no_admission_key_recorded`: an id-less text message and
an id-less callback click, each leaving the admission map empty while
producing one upstream call and one send. -/
theorem no_admission_key_recorded_witness :
    ((handleUpdate ⟨none, some ⟨none, some "hey", 5, none⟩, none⟩
        ⟨[], []⟩ 3 [] ⟨"ok", []⟩).2.seen = [] ∧
      countVf (handleUpdate ⟨none, some ⟨none, some "hey", 5, none⟩, none⟩
        ⟨[], []⟩ 3 [] ⟨"ok", []⟩).1 = 1 ∧
      countSend (handleUpdate ⟨none, some ⟨none, some "hey", 5, none⟩, none⟩
        ⟨[], []⟩ 3 [] ⟨"ok", []⟩).1 = 1) ∧
    ((handleUpdate ⟨none, none, some ⟨none, some "pay", some ⟨none, 5⟩, some 9⟩⟩
        ⟨[], []⟩ 3 [] ⟨"ok", []⟩).2.seen = [] ∧
      countVf (handleUpdate
        ⟨none, none, some ⟨none, some "pay", some ⟨none, 5⟩, some 9⟩⟩
        ⟨[], []⟩ 3 [] ⟨"ok", []⟩).1 = 1 ∧
      countSend (handleUpdate
        ⟨none, none, some ⟨none, some "pay", some ⟨none, 5⟩, some 9⟩⟩
        ⟨[], []⟩ 3 [] ⟨"ok", []⟩).1 = 1) :=
  ⟨(no_admission_key_recorded ⟨[], []⟩ 3 [] ⟨"ok", []⟩).1
      ⟨none, some ⟨none, some "hey", 5, none⟩, none⟩
      ⟨none, some "hey", 5, none⟩ rfl rfl rfl rfl (by decide) (by decide)
      (by decide),
   (no_admission_key_recorded ⟨[], []⟩ 3 [] ⟨"ok", []⟩).2
      ⟨none, none, some ⟨none, some "pay", some ⟨none, 5⟩, some 9⟩⟩
      ⟨none, some "pay", some ⟨none, 5⟩, some 9⟩ "pay" ⟨none, 5⟩ rfl rfl
      rfl rfl (by decide) rfl (by decide)⟩

end VfBot
